import Mathlib

/-!
# Design-agent backend: shallow embedding and verification

A shallow embedding of the Express/Firestore backend of the design-agent
repository (`backend/src/index.ts`, reproduced in the repository README):
the data model (users, projects, designs, training data), the generation
adapter `generateDesign`, and the route handlers for register, login,
design listing, design creation, version generation, the provider listing
and the admin training-data upload.

Modelling conventions:
- Firestore is modelled as in the specification's Document Store Adapter
  contract: each collection is a list of (docId, document) pairs; `add`
  appends with a caller-supplied fresh id, `doc(id).get` is a first-match
  lookup, a chained `where` query is a conjunction filter, `orderBy`
  descending is an insertion sort on the ordered field, and `update`
  merges the named fields into the matching document.
- JavaScript numbers arriving in request bodies are modelled as `Int`
  (the handlers only ever add them and pass them to `Array.from`);
  `Array.from {length := n}` produces `max n 0` elements, modelled by
  `Int.toNat`.
- `bcrypt` and `jwt` are opaque per the specification: hashing/comparison
  are function parameters, a signed token is its embedded payload.
- The external AI clients are an environment record: whether each client
  was initialized, whether each API key is set, and the outcome of a live
  OpenAI call (success with an optional URL, or a thrown error).
-/

/-- Design content fields (`DesignContent` in the frontend types):
all optional. -/
structure DesignContent where
  title : Option String := none
  copy : Option String := none
  description : Option String := none
  cta : Option String := none
  footerContent : Option String := none
deriving DecidableEq, Repr

/-- Brand attributes of a project (`BrandElements`). -/
structure BrandElements where
  colorPalette : List String := []
  logo : Option String := none
  fonts : List String := []
  brandGuidelines : Option String := none
deriving DecidableEq, Repr

/-- A project document. `brandElements` is optional because
`generateDesign` reads it with optional chaining
(`project.brandElements?.colorPalette`). Timestamps are abstract ticks. -/
structure Project where
  name : String
  description : String
  userId : String
  brandElements : Option BrandElements := none
  designType : String
  createdAt : Nat := 0
  updatedAt : Nat := 0
deriving DecidableEq, Repr

/-- A design document, as created by `POST /api/designs` and updated by
`POST /api/designs/:id/generate`. `currentVersion` is an `Int`: the
handler adds the caller-supplied `count` to it without validation. -/
structure Design where
  projectId : String
  userId : String
  baseReferenceImage : Option String := none
  content : DesignContent := {}
  generatedImages : List String := []
  currentVersion : Int := 0
  isActive : Bool := true
  createdAt : Nat := 0
  updatedAt : Nat := 0
deriving DecidableEq, Repr

/-- A user document as stored by the register handler; `password` holds
the bcrypt hash. -/
structure UserDoc where
  email : String
  password : String
  firstName : String
  lastName : String
  role : String
  createdAt : Nat := 0
  updatedAt : Nat := 0
deriving DecidableEq, Repr

/-- A training-data document as stored by the admin upload handler. -/
structure TrainingData where
  uploadedBy : String
  imagePath : String
  designType : Option String := none
  tags : List String := []
  description : Option String := none
  isProcessed : Bool := false
  createdAt : Nat := 0
  updatedAt : Nat := 0
deriving DecidableEq, Repr

/-- The Firestore database: one list of (docId, document) pairs per
collection, per the specification's Document Store Adapter. -/
structure Store where
  users : List (String × UserDoc) := []
  projects : List (String × Project) := []
  designs : List (String × Design) := []
  trainingData : List (String × TrainingData) := []
deriving DecidableEq, Repr

/-- Point lookup `db.collection('projects').doc(id).get()`. -/
def Store.findProject (s : Store) (id : String) : Option Project :=
  (s.projects.find? fun e => e.1 == id).map (·.2)

/-- Point lookup `db.collection('designs').doc(id).get()`. -/
def Store.findDesign (s : Store) (id : String) : Option Design :=
  (s.designs.find? fun e => e.1 == id).map (·.2)

/-- The partial update issued by the generate handler:
`update({generatedImages, currentVersion, updatedAt})` merges exactly
these three fields into the matching design document. -/
def Store.updateDesignDoc (s : Store) (id : String) (gi : List String)
    (cv : Int) (t : Nat) : Store :=
  { s with designs := s.designs.map fun e =>
      if e.1 == id then
        (e.1, { e.2 with generatedImages := gi, currentVersion := cv, updatedAt := t })
      else e }

/-- The environment of external AI services: which clients were
initialized at startup, which API keys are present in the environment,
and the outcome of a live OpenAI `images.generate` call on a given
prompt — `Except.error` models a thrown exception, `Except.ok` carries
the (possibly absent) URL of the first returned image. -/
structure AIEnv where
  openaiConfigured : Bool := false
  geminiConfigured : Bool := false
  openaiKeySet : Bool := false
  geminiKeySet : Bool := false
  qwenKeySet : Bool := false
  openaiCall : String → Except String (Option String) := fun _ => .error "no network"

/-- JavaScript `s.toUpperCase()` on the ASCII provider names:
character-wise upper-casing. -/
def toUpperCase (s : String) : String := ⟨s.data.map Char.toUpper⟩

/-- `x?.join(', ') || dflt`: a missing object or an empty joined string
falls back to the default (the empty string is falsy in JavaScript). -/
def joinOrFallback (l : Option (List String)) (dflt : String) : String :=
  match l with
  | none => dflt
  | some xs =>
    let s := String.intercalate ", " xs
    if s = "" then dflt else s

/-- `s || ''` on an optional string field. -/
def orEmpty (s : Option String) : String := s.getD ""

/-- The prompt template of `generateDesign`. -/
def buildPrompt (project : Project) (content : DesignContent) : String :=
  "Create a professional " ++ project.designType ++ " design. \n    Colors: "
    ++ joinOrFallback (project.brandElements.map (·.colorPalette)) "default"
    ++ "\n    Fonts: "
    ++ joinOrFallback (project.brandElements.map (·.fonts)) "modern"
    ++ "\n    Title: " ++ orEmpty content.title
    ++ "\n    Copy: " ++ orEmpty content.copy
    ++ "\n    Description: " ++ orEmpty content.description
    ++ "\n    CTA: " ++ orEmpty content.cta
    ++ "\n    Footer: " ++ orEmpty content.footerContent
    ++ "\n    Make it modern, professional, and visually appealing."

/-- The body of `generateDesign`'s `try` block: the provider switch.
An `Except.error` is an exception escaping the `try` block (only the
live OpenAI call can throw; every other branch returns a URL). -/
def generateDesignTry (env : AIEnv) (prompt : String) (provider : String) :
    Except String String :=
  if provider = "openai" then
    if !env.openaiConfigured then
      .ok "https://via.placeholder.com/1024x1024/FF6B6B/FFFFFF?text=OpenAI+Not+Configured"
    else
      match env.openaiCall prompt with
      | .ok url => .ok (url.getD "")
      | .error e => .error e
  else if provider = "gemini" then
    if !env.geminiConfigured then
      .ok "https://via.placeholder.com/1024x1024/4F46E5/FFFFFF?text=Gemini+Not+Configured"
    else
      .ok "https://via.placeholder.com/1024x1024/4F46E5/FFFFFF?text=Gemini+Generated+Design"
  else if provider = "qwen" then
    .ok "https://via.placeholder.com/1024x1024/10B981/FFFFFF?text=Qwen+Generated+Design"
  else
    .ok ("https://via.placeholder.com/1024x1024/6B7280/FFFFFF?text=Demo+Design+"
      ++ toUpperCase provider)

/-- `generateDesign(project, content, provider)`: builds the prompt,
runs the provider switch, and catches any exception, substituting the
error placeholder — the function always returns a URL string. -/
def generateDesign (env : AIEnv) (project : Project) (content : DesignContent)
    (provider : String) : String :=
  match generateDesignTry env (buildPrompt project content) provider with
  | .ok url => url
  | .error _ =>
    "https://via.placeholder.com/1024x1024/EF4444/FFFFFF?text=Error+Generating+Design"

/-- `GET /api/ai/providers`: availability is keyed on the presence of
each API key in the environment, not on client initialization. -/
def getProviders (env : AIEnv) : List (String × Bool) :=
  [("openai", env.openaiKeySet), ("gemini", env.geminiKeySet), ("qwen", env.qwenKeySet)]

/-- The payload `jwt.sign({userId, role}, secret)` embeds; token
verification is opaque, so a token is identified with its payload. -/
structure Token where
  userId : String
  role : String
deriving DecidableEq, Repr

/-- Outcome of `POST /api/auth/register`. -/
inductive RegisterResult where
  /-- 400 `User already exists`. -/
  | userExists
  /-- 201 with a signed token and the created user's id. -/
  | created (token : Token) (userId : String)
deriving DecidableEq, Repr

/-- HTTP status of a register outcome. -/
def RegisterResult.status : RegisterResult → Nat
  | .userExists => 400
  | .created _ _ => 201

/-- The register request body. The handler destructures only
`email, password, firstName, lastName`; a caller-supplied `role` field
is present in the model to show it is ignored. -/
structure RegisterReq where
  email : String
  password : String
  firstName : String
  lastName : String
  role : Option String := none
deriving DecidableEq, Repr

/-- `POST /api/auth/register`: reject when a user with the email exists,
otherwise store the user with `role := "user"` and the bcrypt hash of the
password, and sign a token over the fresh id and that role.
`hash` is the opaque `bcrypt.hash(·, 12)`; `freshId` is the id Firestore
assigns on `add`. -/
def register (hash : String → String) (freshId : String) (now : Nat)
    (s : Store) (req : RegisterReq) : Store × RegisterResult :=
  if (s.users.filter fun e => e.2.email == req.email) ≠ [] then
    (s, .userExists)
  else
    let userData : UserDoc :=
      { email := req.email, password := hash req.password,
        firstName := req.firstName, lastName := req.lastName,
        role := "user", createdAt := now, updatedAt := now }
    ({ s with users := s.users ++ [(freshId, userData)] },
     .created { userId := freshId, role := userData.role } freshId)

/-- Outcome of `POST /api/auth/login`. -/
inductive LoginResult where
  /-- 400 `Invalid credentials` (unknown email or wrong password). -/
  | invalidCredentials
  /-- 200 with a signed token. -/
  | ok (token : Token)
deriving DecidableEq, Repr

/-- `POST /api/auth/login`: query users by email, take the first match
(`snapshot.docs[0]`), compare the password with the stored hash, and sign
a token over the doc id and stored role. `compare` is the opaque
`bcrypt.compare`. -/
def login (compare : String → String → Bool) (s : Store)
    (email password : String) : LoginResult :=
  match s.users.filter fun e => e.2.email == email with
  | [] => .invalidCredentials
  | (docId, u) :: _ =>
    if compare password u.password then .ok { userId := docId, role := u.role }
    else .invalidCredentials

/-- Descending insertion of one entry by `createdAt` (newest first). -/
def insertByCreatedAtDesc (x : String × Design) :
    List (String × Design) → List (String × Design)
  | [] => [x]
  | y :: ys =>
    if y.2.createdAt ≤ x.2.createdAt then x :: y :: ys
    else y :: insertByCreatedAtDesc x ys

/-- `orderBy('createdAt', 'desc')` modelled as an insertion sort. -/
def sortByCreatedAtDesc : List (String × Design) → List (String × Design)
  | [] => []
  | x :: xs => insertByCreatedAtDesc x (sortByCreatedAtDesc xs)

/-- `GET /api/designs/project/:projectId`: the chained
`where('projectId','==',pid).where('userId','==',uid)` query is a
conjunction filter per the Document Store Adapter contract, ordered
newest first. -/
def getDesignsForProject (s : Store) (projectId callerId : String) :
    List (String × Design) :=
  sortByCreatedAtDesc
    (s.designs.filter fun e => e.2.projectId == projectId && e.2.userId == callerId)

/-- Outcome of `POST /api/designs`. -/
inductive CreateDesignResult where
  /-- 404 `Project not found`: the project is missing **or** owned by a
  different user — the handler does not distinguish the two. -/
  | projectNotFound
  /-- 201 with the created design. -/
  | created (id : String) (d : Design)
deriving DecidableEq, Repr

/-- HTTP status of a create-design outcome. -/
def CreateDesignResult.status : CreateDesignResult → Nat
  | .projectNotFound => 404
  | .created _ _ => 201

/-- `POST /api/designs`: verify the project exists and belongs to the
caller (`!projectDoc.exists || projectDoc.data().userId !== req.userId`
short-circuits to one 404), then store a design with empty image list and
version 0. -/
def createDesign (freshId : String) (now : Nat) (s : Store) (callerId : String)
    (projectId : String) (content : Option DesignContent)
    (baseReferenceImage : Option String) : Store × CreateDesignResult :=
  match s.findProject projectId with
  | none => (s, .projectNotFound)
  | some p =>
    if p.userId ≠ callerId then (s, .projectNotFound)
    else
      let d : Design :=
        { projectId := projectId, userId := callerId,
          baseReferenceImage := baseReferenceImage,
          content := content.getD {}, generatedImages := [],
          currentVersion := 0, isActive := true,
          createdAt := now, updatedAt := now }
      ({ s with designs := s.designs ++ [(freshId, d)] }, .created freshId d)

/-- Outcome of `POST /api/designs/:id/generate`. -/
inductive GenerateResult where
  /-- 404 `Design not found`. -/
  | designNotFound
  /-- 403 `Access denied`: the design belongs to another user. -/
  | accessDenied
  /-- 404 `Project not found`: the design's parent project is missing. -/
  | projectNotFound
  /-- 200 with the new URLs, the reported total and the provider. -/
  | ok (newVersions : List String) (totalVersions : Int) (provider : String)
deriving DecidableEq, Repr

/-- HTTP status of a generate outcome. -/
def GenerateResult.status : GenerateResult → Nat
  | .designNotFound => 404
  | .accessDenied => 403
  | .projectNotFound => 404
  | .ok _ _ _ => 200

/-- `POST /api/designs/:id/generate`: defaults `count = 3` and
`provider = 'openai'`; 404 on a missing design, 403 on a foreign design,
404 on a missing parent project; then `Array.from({length: count})`
fan-out of identical `generateDesign` calls (`Int.toNat` models
JavaScript's ToLength clamp of a negative length to 0), a single merge
update writing the appended list, the counter advanced by `count` and a
fresh `updatedAt`, and a 200 response reporting the new URLs and
`currentVersion + count`. -/
def generateVersions (env : AIEnv) (now : Nat) (s : Store) (callerId : String)
    (designId : String) (count : Option Int) (provider : Option String) :
    Store × GenerateResult :=
  let cnt := count.getD 3
  let prov := provider.getD "openai"
  match s.findDesign designId with
  | none => (s, .designNotFound)
  | some d =>
    if d.userId ≠ callerId then (s, .accessDenied)
    else
      match s.findProject d.projectId with
      | none => (s, .projectNotFound)
      | some p =>
        let imageUrls := List.replicate cnt.toNat (generateDesign env p d.content prov)
        (s.updateDesignDoc designId (d.generatedImages ++ imageUrls)
           (d.currentVersion + cnt) now,
         .ok imageUrls (d.currentVersion + cnt) prov)

/-- Outcome of `POST /api/admin/training-data`. -/
inductive TrainingUploadResult where
  /-- 403 `Access denied. Super admin required.` -/
  | forbidden
  /-- 400 `No image uploaded`. -/
  | noImage
  /-- 500: `processAndSaveImage` threw. -/
  | serverError
  /-- 201 with the stored record. -/
  | created (td : TrainingData)
deriving DecidableEq, Repr

/-- HTTP status of a training-upload outcome. -/
def TrainingUploadResult.status : TrainingUploadResult → Nat
  | .forbidden => 403
  | .noImage => 400
  | .serverError => 500
  | .created _ => 201

/-- The non-file fields of the training-data upload body. -/
structure TrainingBody where
  designType : Option String := none
  tags : Option String := none
  description : Option String := none
deriving DecidableEq, Repr

/-- `tags ? tags.split(',').map(t => t.trim()) : []` — the empty string
is falsy, so it also yields the empty list. -/
def splitTags (tags : Option String) : List String :=
  match tags with
  | none => []
  | some t => if t = "" then [] else (t.splitOn ",").map String.trim

/-- `POST /api/admin/training-data`: the role gate runs first and returns
403 for any caller whose token role is not `super_admin`, before the file
or fields are examined; then the file-presence check, the opaque image
pipeline (`processImage` models `processAndSaveImage`: raw buffer to
stored path, or a thrown `ImageProcessingError`), and the record insert. -/
def uploadTrainingData (processImage : String → Except Unit String)
    (freshId : String) (now : Nat) (s : Store) (role userId : String)
    (file : Option String) (body : TrainingBody) : Store × TrainingUploadResult :=
  if role ≠ "super_admin" then (s, .forbidden)
  else
    match file with
    | none => (s, .noImage)
    | some buf =>
      match processImage buf with
      | .error _ => (s, .serverError)
      | .ok imagePath =>
        let td : TrainingData :=
          { uploadedBy := userId, imagePath := imagePath,
            designType := body.designType, tags := splitTags body.tags,
            description := body.description, isProcessed := false,
            createdAt := now, updatedAt := now }
        ({ s with trainingData := s.trainingData ++ [(freshId, td)] }, .created td)

/-- The data-model invariant: a design's version counter equals the
length of its generated-image list. -/
def designInvariant (d : Design) : Prop :=
  d.currentVersion = (d.generatedImages.length : Int)

instance (d : Design) : Decidable (designInvariant d) := by
  unfold designInvariant; infer_instance

/-- The invariant over every design in the store, as a Bool. -/
def Store.invariantAll (s : Store) : Bool :=
  s.designs.all fun e => decide (designInvariant e.2)

/-! ## Helper lemmas -/

theorem find?_update_entry (id : String) (f : Design → Design)
    (l : List (String × Design)) :
    ((l.map fun e => if e.1 == id then (e.1, f e.2) else e).find? fun e => e.1 == id)
      = (l.find? fun e => e.1 == id).map fun e => (e.1, f e.2) := by
  induction l with
  | nil => rfl
  | cons e es ih =>
    cases hbe : (e.1 == id) with
    | true => simp [List.find?, hbe]
    | false =>
      rw [List.map_cons,
        show (if (e.1 == id) = true then (e.1, f e.2) else e) = e from
          if_neg (by simp [hbe])]
      simp only [List.find?, hbe]
      exact ih

theorem findDesign_updateDesignDoc (s : Store) (id : String) (gi : List String)
    (cv : Int) (t : Nat) :
    (s.updateDesignDoc id gi cv t).findDesign id =
      (s.findDesign id).map fun d =>
        { d with generatedImages := gi, currentVersion := cv, updatedAt := t } := by
  unfold Store.updateDesignDoc Store.findDesign
  rw [find?_update_entry id
    (fun d => { d with generatedImages := gi, currentVersion := cv, updatedAt := t })]
  cases s.designs.find? fun e => e.1 == id <;> rfl

theorem mem_insertByCreatedAtDesc (x a : String × Design)
    (l : List (String × Design)) :
    a ∈ insertByCreatedAtDesc x l ↔ a = x ∨ a ∈ l := by
  induction l with
  | nil => simp [insertByCreatedAtDesc]
  | cons y ys ih =>
    unfold insertByCreatedAtDesc
    by_cases h : y.2.createdAt ≤ x.2.createdAt
    · simp [h]
    · simp [h, ih]; tauto

theorem mem_sortByCreatedAtDesc (a : String × Design)
    (l : List (String × Design)) :
    a ∈ sortByCreatedAtDesc l ↔ a ∈ l := by
  induction l with
  | nil => simp [sortByCreatedAtDesc]
  | cons x xs ih =>
    simp [sortByCreatedAtDesc, mem_insertByCreatedAtDesc, ih]

/-! ## Test fixtures -/

/-- A concrete project owned by user `bob`. -/
def projBob : Project :=
  { name := "Sale Banner", description := "fall sale", userId := "bob",
    brandElements := none, designType := "social_media" }

/-- A concrete fresh design owned by `bob` under project `p1`. -/
def designBob : Design :=
  { projectId := "p1", userId := "bob" }

/-- A concrete store holding `projBob` and `designBob`. -/
def store1 : Store :=
  { projects := [("p1", projBob)], designs := [("d1", designBob)] }

/-- A fully unconfigured AI environment (demo mode). -/
def env0 : AIEnv := {}

/-- A concrete register request that tries to self-assign `super_admin`. -/
def regReq0 : RegisterReq :=
  { email := "alice@x.com", password := "pw", firstName := "Alice",
    lastName := "W", role := some "super_admin" }

/-! ## Claims -/

/-- C3: for every project, content and provider string, `generateDesign`
never propagates an error: an unconfigured provider (no client
initialized) and an unrecognized provider name yield deterministic
placeholder URLs, and any exception thrown inside the provider switch —
in particular a failing live OpenAI call — is caught and absorbed into
the error placeholder URL rather than raised. -/
theorem generateDesign_never_fails (env : AIEnv) (project : Project)
    (content : DesignContent) (provider : String) :
    (env.openaiConfigured = false →
      generateDesign env project content "openai"
        = "https://via.placeholder.com/1024x1024/FF6B6B/FFFFFF?text=OpenAI+Not+Configured") ∧
    (env.geminiConfigured = false →
      generateDesign env project content "gemini"
        = "https://via.placeholder.com/1024x1024/4F46E5/FFFFFF?text=Gemini+Not+Configured") ∧
    (provider ≠ "openai" → provider ≠ "gemini" → provider ≠ "qwen" →
      generateDesign env project content provider
        = "https://via.placeholder.com/1024x1024/6B7280/FFFFFF?text=Demo+Design+"
            ++ toUpperCase provider) ∧
    (∀ e, env.openaiConfigured = true →
      env.openaiCall (buildPrompt project content) = .error e →
      generateDesign env project content "openai"
        = "https://via.placeholder.com/1024x1024/EF4444/FFFFFF?text=Error+Generating+Design") ∧
    (∀ e, generateDesignTry env (buildPrompt project content) provider = .error e →
      generateDesign env project content provider
        = "https://via.placeholder.com/1024x1024/EF4444/FFFFFF?text=Error+Generating+Design") := by
  refine ⟨?_, ?_, ?_, ?_, ?_⟩
  · intro h; simp [generateDesign, generateDesignTry, h]
  · intro h; simp [generateDesign, generateDesignTry, h]
  · intro h1 h2 h3; simp [generateDesign, generateDesignTry, h1, h2, h3]
  · intro e hc herr; simp [generateDesign, generateDesignTry, hc, herr]
  · intro e herr; simp [generateDesign, herr]

/-- C3 witness: in the fully unconfigured environment, the OpenAI branch
and an unknown provider both yield their placeholders. -/
theorem generateDesign_never_fails_witness :
    generateDesign env0 projBob {} "openai"
      = "https://via.placeholder.com/1024x1024/FF6B6B/FFFFFF?text=OpenAI+Not+Configured" ∧
    generateDesign env0 projBob {} "foo"
      = "https://via.placeholder.com/1024x1024/6B7280/FFFFFF?text=Demo+Design+FOO" := by
  refine ⟨(generateDesign_never_fails env0 projBob {} "foo").1 rfl, ?_⟩
  have h := (generateDesign_never_fails env0 projBob {} "foo").2.2.1
    (by decide) (by decide) (by decide)
  rw [h]; decide

/-- C9: `generateDesign` with provider `qwen` returns the fixed
placeholder URL for every environment — configured or not, no qwen
backend is consulted — while the provider listing reports qwen as
available exactly when its API key is set. -/
theorem qwen_always_placeholder (env : AIEnv) (project : Project)
    (content : DesignContent) :
    generateDesign env project content "qwen"
      = "https://via.placeholder.com/1024x1024/10B981/FFFFFF?text=Qwen+Generated+Design" ∧
    List.lookup "qwen" (getProviders env) = some env.qwenKeySet :=
  ⟨rfl, rfl⟩

/-- C5: a caller whose token role is `user` always receives 403 from the
training-data upload endpoint, whatever the file and fields, and the
store is untouched. -/
theorem training_upload_role_user_forbidden
    (processImage : String → Except Unit String) (freshId : String) (now : Nat)
    (s : Store) (userId : String) (file : Option String) (body : TrainingBody) :
    uploadTrainingData processImage freshId now s "user" userId file body
      = (s, .forbidden) ∧
    (uploadTrainingData processImage freshId now s "user" userId file body).2.status
      = 403 :=
  ⟨rfl, rfl⟩

/-- Success path of the generate handler: when the design exists, belongs
to the caller, and its parent project exists, the handler performs the
single merge update and returns 200 with the fan-out results. -/
theorem generateVersions_ok (env : AIEnv) (now : Nat) (s : Store)
    (caller did : String) (d : Design) (p : Project)
    (count : Option Int) (provider : Option String)
    (hd : s.findDesign did = some d) (hown : d.userId = caller)
    (hp : s.findProject d.projectId = some p) :
    generateVersions env now s caller did count provider =
      (s.updateDesignDoc did
         (d.generatedImages ++ List.replicate (count.getD 3).toNat
            (generateDesign env p d.content (provider.getD "openai")))
         (d.currentVersion + count.getD 3) now,
       .ok (List.replicate (count.getD 3).toNat
              (generateDesign env p d.content (provider.getD "openai")))
           (d.currentVersion + count.getD 3) (provider.getD "openai")) := by
  simp [generateVersions, hd, hown, hp]

/-- C1: an authenticated generate request with `count = n` on an owned
design whose version is `v` and whose image list has `v` entries
succeeds with exactly `n` new URLs, leaves the design at version `v + n`
with `v + n` stored images whose first `v` entries are the previous ones
in order, and reports `totalVersions = v + n`. -/
theorem version_monotonic (env : AIEnv) (now : Nat) (s : Store)
    (caller did : String) (d : Design) (p : Project) (v n : Nat)
    (provider : Option String)
    (hd : s.findDesign did = some d) (hown : d.userId = caller)
    (hp : s.findProject d.projectId = some p)
    (hv : d.currentVersion = (v : Int))
    (hlen : d.generatedImages.length = v) :
    (generateVersions env now s caller did (some (n : Int)) provider).2
      = .ok (List.replicate n (generateDesign env p d.content (provider.getD "openai")))
          ((v : Int) + (n : Int)) (provider.getD "openai") ∧
    (generateVersions env now s caller did (some (n : Int)) provider).2.status = 200 ∧
    (List.replicate n (generateDesign env p d.content (provider.getD "openai"))).length
      = n ∧
    (generateVersions env now s caller did (some (n : Int)) provider).1.findDesign did
      = some { d with
          generatedImages := d.generatedImages
            ++ List.replicate n (generateDesign env p d.content (provider.getD "openai")),
          currentVersion := (v : Int) + (n : Int), updatedAt := now } ∧
    (d.generatedImages
      ++ List.replicate n (generateDesign env p d.content (provider.getD "openai"))).length
      = v + n ∧
    (d.generatedImages
      ++ List.replicate n (generateDesign env p d.content (provider.getD "openai"))).take v
      = d.generatedImages := by
  have hok := generateVersions_ok env now s caller did d p (some (n : Int)) provider
    hd hown hp
  simp only [Option.getD_some, Int.toNat_natCast] at hok
  refine ⟨?_, ?_, ?_, ?_, ?_, ?_⟩
  · rw [hok]; simp [hv]
  · rw [hok]; rfl
  · simp
  · rw [hok]
    simp only [findDesign_updateDesignDoc, hd, Option.map_some]
    simp [hv]
  · simp [hlen]
  · exact List.take_left' hlen

/-- C1 witness: generating 2 qwen versions on the fresh design `d1`. -/
theorem version_monotonic_witness :
    (generateVersions env0 9 store1 "bob" "d1" (some 2) (some "qwen")).2
      = .ok (List.replicate 2 (generateDesign env0 projBob designBob.content "qwen"))
          2 "qwen" := by
  have h := version_monotonic env0 9 store1 "bob" "d1" designBob projBob 0 2
    (some "qwen") rfl rfl rfl rfl rfl
  simpa using h.1

/-- C8: a generate request whose body omits `count` and `provider`
defaults to 3 OpenAI calls: the response carries exactly the 3 fan-out
URLs, the version advances by 3 and the stored list grows by 3. -/
theorem generate_defaults (env : AIEnv) (now : Nat) (s : Store)
    (caller did : String) (d : Design) (p : Project)
    (hd : s.findDesign did = some d) (hown : d.userId = caller)
    (hp : s.findProject d.projectId = some p) :
    (generateVersions env now s caller did none none).2
      = .ok (List.replicate 3 (generateDesign env p d.content "openai"))
          (d.currentVersion + 3) "openai" ∧
    (generateVersions env now s caller did none none).2.status = 200 ∧
    (List.replicate 3 (generateDesign env p d.content "openai")).length = 3 ∧
    (generateVersions env now s caller did none none).1.findDesign did
      = some { d with
          generatedImages := d.generatedImages
            ++ List.replicate 3 (generateDesign env p d.content "openai"),
          currentVersion := d.currentVersion + 3, updatedAt := now } ∧
    (d.generatedImages
      ++ List.replicate 3 (generateDesign env p d.content "openai")).length
      = d.generatedImages.length + 3 := by
  have hok := generateVersions_ok env now s caller did d p none none hd hown hp
  simp only [Option.getD_none] at hok
  refine ⟨?_, ?_, ?_, ?_, ?_⟩
  · rw [hok]; rfl
  · rw [hok]; rfl
  · simp
  · rw [hok]
    simp only [findDesign_updateDesignDoc, hd, Option.map_some]
    rfl
  · simp

/-- C8 witness: omitting the body fields on `d1` yields 3 openai URLs. -/
theorem generate_defaults_witness :
    (generateVersions env0 9 store1 "bob" "d1" none none).2
      = .ok (List.replicate 3 (generateDesign env0 projBob designBob.content "openai"))
          3 "openai" := by
  have h := generate_defaults env0 9 store1 "bob" "d1" designBob projBob rfl rfl rfl
  simpa using h.1

/-- C10: a generate request with `count = 0` on an owned design succeeds
with an empty `newVersions`, reports the prior version as the total, and
rewrites the stored design to the very same document except for a fresh
`updatedAt`. -/
theorem generate_count_zero (env : AIEnv) (now : Nat) (s : Store)
    (caller did : String) (d : Design) (p : Project) (provider : Option String)
    (hd : s.findDesign did = some d) (hown : d.userId = caller)
    (hp : s.findProject d.projectId = some p) :
    (generateVersions env now s caller did (some 0) provider).2
      = .ok [] d.currentVersion (provider.getD "openai") ∧
    (generateVersions env now s caller did (some 0) provider).2.status = 200 ∧
    (generateVersions env now s caller did (some 0) provider).1.findDesign did
      = some { d with updatedAt := now } := by
  have hok := generateVersions_ok env now s caller did d p (some 0) provider hd hown hp
  simp only [Option.getD_some, Int.toNat_zero, List.replicate_zero, List.append_nil,
    add_zero] at hok
  refine ⟨?_, ?_, ?_⟩
  · rw [hok]
  · rw [hok]; rfl
  · rw [hok]
    rw [findDesign_updateDesignDoc, hd]
    rfl

/-- C10 witness: `count = 0` on `d1` leaves everything but `updatedAt`. -/
theorem generate_count_zero_witness :
    (generateVersions env0 9 store1 "bob" "d1" (some 0) none).2 = .ok [] 0 "openai" ∧
    (generateVersions env0 9 store1 "bob" "d1" (some 0) none).1.findDesign "d1"
      = some { designBob with updatedAt := 9 } := by
  have h := generate_count_zero env0 9 store1 "bob" "d1" designBob projBob none
    rfl rfl rfl
  exact ⟨h.1, h.2.2⟩

/-- C4 counterexample: project `p1` exists and is owned by `bob`, yet a
create-design request from `alice` is answered with 404, not 403 — the
handler folds the wrong-owner case into its `Project not found` branch. -/
theorem create_design_wrong_owner_404_counterexample :
    store1.findProject "p1" = some projBob ∧
    projBob.userId ≠ "alice" ∧
    (createDesign "d2" 5 store1 "alice" "p1" none none).2.status ≠ 403 ∧
    (createDesign "d2" 5 store1 "alice" "p1" none none).2.status = 404 := by
  refine ⟨rfl, by decide, by decide, rfl⟩

/-- C4 (amended): for every create-design request whose `projectId`
names an existing project owned by a different user, the response status
is 404 — the same status as for a missing project — and no design is
created. -/
theorem create_design_wrong_owner_404 (freshId : String) (now : Nat) (s : Store)
    (callerId projectId : String) (content : Option DesignContent)
    (ref : Option String) (p : Project)
    (hp : s.findProject projectId = some p) (hne : p.userId ≠ callerId) :
    createDesign freshId now s callerId projectId content ref
      = (s, .projectNotFound) ∧
    (createDesign freshId now s callerId projectId content ref).2.status = 404 := by
  constructor
  · simp [createDesign, hp, hne]
  · simp [createDesign, hp, hne]; rfl

/-- C4 witness: the amended statement at the concrete store. -/
theorem create_design_wrong_owner_404_witness :
    createDesign "d2" 5 store1 "alice" "p1" none none = (store1, .projectNotFound) :=
  (create_design_wrong_owner_404 "d2" 5 store1 "alice" "p1" none none projBob
    rfl (by decide)).1

/-- C6: the design listing filters on `projectId` and the caller's
`userId` conjunctively: every returned design matches both, and a caller
owning no design of the project receives the empty sequence. -/
theorem list_designs_owner_scoped (s : Store) (pid uid : String) :
    ((∀ e ∈ s.designs, e.2.projectId = pid → e.2.userId ≠ uid) →
      getDesignsForProject s pid uid = []) ∧
    (∀ e ∈ getDesignsForProject s pid uid, e.2.projectId = pid ∧ e.2.userId = uid) := by
  constructor
  · intro h
    unfold getDesignsForProject
    have hf : (s.designs.filter fun e => e.2.projectId == pid && e.2.userId == uid) = [] := by
      rw [List.filter_eq_nil_iff]
      intro e he
      simp only [Bool.and_eq_true, beq_iff_eq, not_and]
      intro hpid
      exact fun huid => h e he hpid huid
    rw [hf]; rfl
  · intro e he
    rw [getDesignsForProject, mem_sortByCreatedAtDesc, List.mem_filter] at he
    have := he.2
    simp only [Bool.and_eq_true, beq_iff_eq] at this
    exact this

/-- C6 witness: `alice` owns no design of `p1` in the concrete store, so
her listing is empty. -/
theorem list_designs_owner_scoped_witness :
    getDesignsForProject store1 "p1" "alice" = [] :=
  (list_designs_owner_scoped store1 "p1" "alice").1 (by decide)

/-- C7: registering an unused email stores the user with role `user` —
whatever role the request body carries — and a subsequent login with the
same credentials succeeds with a token embedding role `user`. The bcrypt
pair is abstract, constrained only by `compare p (hash p) = true`. -/
theorem register_then_login (hash : String → String)
    (compare : String → String → Bool) (freshId : String) (now : Nat)
    (s : Store) (req : RegisterReq)
    (hcmp : compare req.password (hash req.password) = true)
    (hfree : (s.users.filter fun e => e.2.email == req.email) = []) :
    ∃ u : UserDoc,
      (register hash freshId now s req).2
        = .created { userId := freshId, role := "user" } freshId ∧
      (register hash freshId now s req).1.users = s.users ++ [(freshId, u)] ∧
      u.role = "user" ∧ u.email = req.email ∧ u.password = hash req.password ∧
      login compare (register hash freshId now s req).1 req.email req.password
        = .ok { userId := freshId, role := "user" } := by
  refine ⟨{ email := req.email, password := hash req.password,
            firstName := req.firstName, lastName := req.lastName,
            role := "user", createdAt := now, updatedAt := now }, ?_, ?_, rfl, rfl, rfl, ?_⟩
  · simp [register, hfree]
  · simp [register, hfree]
  · have hreg : (register hash freshId now s req).1.users
        = s.users ++ [(freshId,
            { email := req.email, password := hash req.password,
              firstName := req.firstName, lastName := req.lastName,
              role := "user", createdAt := now, updatedAt := now })] := by
      simp [register, hfree]
    unfold login
    rw [hreg, List.filter_append, hfree]
    simp [hcmp]

/-- C7 witness: with identity hash and equality compare, registering
`alice@x.com` (whose body even asks for `super_admin`) and logging in
yields a token with role `user`. -/
theorem register_then_login_witness :
    login (fun a b => a == b) (register (fun x => x) "u1" 0 {} regReq0).1
      "alice@x.com" "pw" = .ok { userId := "u1", role := "user" } := by
  obtain ⟨u, -, -, -, -, -, hlog⟩ :=
    register_then_login (fun x => x) (fun a b => a == b) "u1" 0 {} regReq0
      (by decide) rfl
  exact hlog

/-- C2 counterexample: the generate handler accepts `count = -1` (no
validation), answers 200, and leaves `d1` with `currentVersion = -1`
over an unchanged empty image list — the version/length invariant that
held before the request fails after it. -/
theorem invariant_broken_by_negative_count :
    store1.invariantAll = true ∧
    (generateVersions env0 7 store1 "bob" "d1" (some (-1)) none).2.status = 200 ∧
    (generateVersions env0 7 store1 "bob" "d1" (some (-1)) none).1.invariantAll
      = false := by
  refine ⟨rfl, rfl, rfl⟩

/-- C2 (amended): create-design always stores version 0 with an empty
image list, and generate-versions preserves the version/length invariant
for every **non-negative** caller-supplied count (including the omitted
default 3); a negative count — also accepted by the handler — breaks it. -/
theorem invariant_preserved :
    (∀ (freshId : String) (now : Nat) (s : Store) (callerId projectId : String)
        (content : Option DesignContent) (ref : Option String),
        s.invariantAll = true →
        ((createDesign freshId now s callerId projectId content ref).1).invariantAll
          = true) ∧
    (∀ (env : AIEnv) (now : Nat) (s : Store) (callerId designId : String)
        (count : Option Int) (provider : Option String),
        s.invariantAll = true → 0 ≤ count.getD 3 →
        ((generateVersions env now s callerId designId count provider).1).invariantAll
          = true) := by
  constructor
  · intro freshId now s callerId projectId content ref hinv
    unfold createDesign
    cases hp : s.findProject projectId with
    | none => exact hinv
    | some p =>
      by_cases ho : p.userId ≠ callerId
      · simp only [if_pos ho]; exact hinv
      · simp only [if_neg ho]
        unfold Store.invariantAll at hinv ⊢
        simp only [List.all_append, hinv, Bool.true_and, List.all_cons, List.all_nil,
          Bool.and_true]
        simp [designInvariant]
  · intro env now s callerId designId count provider hinv hnn
    simp only [generateVersions]
    cases hd : s.findDesign designId with
    | none => exact hinv
    | some d =>
      by_cases ho : d.userId ≠ callerId
      · simp only [if_pos ho]; exact hinv
      · simp only [if_neg ho]
        cases hp : s.findProject d.projectId with
        | none => exact hinv
        | some p =>
          have hdinv : designInvariant d := by
            unfold Store.findDesign at hd
            cases hfe : s.designs.find? fun e => e.1 == designId with
            | none => rw [hfe] at hd; cases hd
            | some e0 =>
              rw [hfe] at hd
              have hmem := List.mem_of_find?_eq_some hfe
              have := List.all_eq_true.mp hinv e0 hmem
              have hP := of_decide_eq_true this
              have he0d : e0.2 = d := by simpa using hd
              exact he0d ▸ hP
          unfold Store.invariantAll at hinv
          unfold Store.invariantAll Store.updateDesignDoc
          simp only [List.all_eq_true] at hinv
          simp only [List.all_map, List.all_eq_true]
          intro e he
          by_cases hid : e.1 == designId
          · simp only [Function.comp_apply, if_pos hid, decide_eq_true_eq]
            unfold designInvariant at hdinv ⊢
            simp only [List.length_append, List.length_replicate]
            have hcast := Int.toNat_of_nonneg hnn
            push_cast
            omega
          · simp only [Function.comp_apply, if_neg hid]
            exact hinv e he

/-- C2 witness: the amended statement at the concrete store, for both
operations (create, and generate with `count = 2`). -/
theorem invariant_preserved_witness :
    ((createDesign "d2" 5 store1 "bob" "p1" none none).1).invariantAll = true ∧
    ((generateVersions env0 7 store1 "bob" "d1" (some 2) none).1).invariantAll
      = true :=
  ⟨invariant_preserved.1 "d2" 5 store1 "bob" "p1" none none rfl,
   invariant_preserved.2 env0 7 store1 "bob" "d1" (some 2) none rfl (by decide)⟩
